import Mathlib

/-!
# Verification of the person-extraction pipeline

A shallow embedding, in Lean 4, of the extraction pipeline of the
City of Adelaide application: the JSON helpers
(`src/utils/json-helpers.js`), the prompt substitution and template
(`src/prompts/person-extraction-prompt.js`), the schema validation of
person records (`src/schemas/person-schema.json` via the `jsonschema`
validator), the LLM provider factory (`src/utils/llm/llm-factory.js`,
`mock-llm.js`, `llm-interface.js`) and the extraction orchestrator
(`src/utils/person/person-extractor.js`, `extractPersonFromDocument`).

JavaScript runtime values are modelled by the inductive `JSValue`;
exceptions are modelled by `Except JSError`; `JSON.parse` is modelled by
a fuel-based recursive-descent parser over the JSON grammar.
-/

set_option maxRecDepth 10000

namespace CityOfAdelaide

/-- A JavaScript runtime value, as produced and consumed by the pipeline.
Numbers are modelled as rationals: the only numeric literals the embedded
code manipulates (JSON numerals, the temperature `0.2`) are exact decimal
fractions, and no floating-point arithmetic occurs anywhere in it. -/
inductive JSValue where
  | undefined : JSValue
  | null : JSValue
  | bool : Bool → JSValue
  | num : Rat → JSValue
  | str : String → JSValue
  | arr : List JSValue → JSValue
  | obj : List (String × JSValue) → JSValue

mutual

/-- Structural (deep) equality on values, as used by the `jsonschema`
validator's `deepCompareStrict` for `enum` membership. -/
def JSValue.beq : JSValue → JSValue → Bool
  | .undefined, .undefined => true
  | .null, .null => true
  | .bool a, .bool b => a == b
  | .num a, .num b => a == b
  | .str a, .str b => a == b
  | .arr a, .arr b => beqList a b
  | .obj a, .obj b => beqFields a b
  | _, _ => false

def beqList : List JSValue → List JSValue → Bool
  | [], [] => true
  | x :: xs, y :: ys => JSValue.beq x y && beqList xs ys
  | _, _ => false

def beqFields : List (String × JSValue) → List (String × JSValue) → Bool
  | [], [] => true
  | (k, v) :: xs, (l, w) :: ys => k == l && JSValue.beq v w && beqFields xs ys
  | _, _ => false

end

/-- JavaScript truthiness: `undefined`, `null`, `false`, `0`, `NaN` and the
empty string are falsy; all objects and arrays are truthy. -/
def truthy : JSValue → Bool
  | .undefined => false
  | .null => false
  | .bool b => b
  | .num n => n ≠ 0
  | .str s => s ≠ ""
  | .arr _ => true
  | .obj _ => true

/-- First binding of a key in an association list (JS objects never hold a
key twice, so first = only). -/
def lookupAssoc {α : Type} : List (String × α) → String → Option α
  | [], _ => none
  | (k, v) :: rest, key => if k = key then some v else lookupAssoc rest key

/-- JS property assignment on an object's field list: overwrite in place if
the key exists, append otherwise. -/
def setAssoc {α : Type} : List (String × α) → String → α → List (String × α)
  | [], k, x => [(k, x)]
  | (k, v) :: rest, key, x =>
    if k = key then (key, x) :: rest else (k, v) :: setAssoc rest key x

/-- JS property read `v[k]`: a missing key reads as `undefined`; reads on
non-objects also yield `undefined` (every call site guards against `null`
and `undefined` receivers, the one case where real JS would throw). -/
def getField (v : JSValue) (k : String) : JSValue :=
  match v with
  | .obj fs => (lookupAssoc fs k).getD .undefined
  | _ => .undefined

/-- JS property write `v[k] = x` (only ever applied to objects here). -/
def setField (v : JSValue) (k : String) (x : JSValue) : JSValue :=
  match v with
  | .obj fs => .obj (setAssoc fs k x)
  | other => other

/-! ## String helpers mirroring the JavaScript string operations used -/

/-- Whitespace for JS `String.prototype.trim` / regex `\s` (the ASCII part,
the only part the embedded strings use). -/
def jsIsWs (c : Char) : Bool :=
  c = ' ' || c = '\t' || c = '\n' || c = '\r' || c = '\x0b' || c = '\x0c'

/-- JS `String.prototype.trim`. -/
def jsTrim (s : String) : String :=
  String.mk ((((s.data.dropWhile jsIsWs).reverse).dropWhile jsIsWs).reverse)

/-- Whether `sub` occurs in `l` (JS `String.prototype.includes`). -/
def hasSubstrList (sub : List Char) : List Char → Bool
  | [] => sub.isEmpty
  | c :: rest => sub.isPrefixOf (c :: rest) || hasSubstrList sub rest

def hasSubstr (s sub : String) : Bool := hasSubstrList sub.data s.data

/-- Index of the first occurrence of character `c`. -/
def firstIndexOf (c : Char) : List Char → Option Nat
  | [] => none
  | x :: rest =>
    if x = c then some 0 else (firstIndexOf c rest).map (· + 1)

/-- Index of the last occurrence of character `c`. -/
def lastIndexOf (c : Char) (l : List Char) : Option Nat :=
  match firstIndexOf c l.reverse with
  | none => none
  | some i => some (l.length - 1 - i)

/-- JS `s.substring(0, n)`: the first `min n (length s)` characters. -/
def jsSubstringTo (s : String) (n : Nat) : String := String.mk (s.data.take n)

/-- Split at the first occurrence of `pat`: `some (before, after)` with
`before ++ pat ++ after = l` and `pat` not occurring earlier. -/
def splitAtFirst (pat : List Char) : List Char → Option (List Char × List Char)
  | [] => if pat.isEmpty then some ([], []) else none
  | c :: rest =>
    if pat.isPrefixOf (c :: rest) then some ([], (c :: rest).drop pat.length)
    else match splitAtFirst pat rest with
      | some (b, a) => some (c :: b, a)
      | none => none

/-! ## A model of `JSON.parse`

A fuel-based recursive-descent parser for the JSON grammar
(ECMA-404, as implemented by `JSON.parse`): a value surrounded by optional
whitespace; strings with the standard escapes; strict number syntax.
`none` models a thrown `SyntaxError`. -/

def jsonWs (c : Char) : Bool := c = ' ' || c = '\t' || c = '\n' || c = '\r'

def skipWs (l : List Char) : List Char := l.dropWhile jsonWs

def hexVal (c : Char) : Option Nat :=
  if '0' ≤ c ∧ c ≤ '9' then some (c.toNat - '0'.toNat)
  else if 'a' ≤ c ∧ c ≤ 'f' then some (c.toNat - 'a'.toNat + 10)
  else if 'A' ≤ c ∧ c ≤ 'F' then some (c.toNat - 'A'.toNat + 10)
  else none

/-- Parse the body of a JSON string after the opening quote, returning the
decoded characters and the input remaining after the closing quote. -/
def parseStringBody : List Char → Option (List Char × List Char)
  | [] => none
  | '"' :: rest => some ([], rest)
  | '\\' :: esc =>
    match esc with
    | '"' :: rest => (parseStringBody rest).map (fun (s, r) => ('"' :: s, r))
    | '\\' :: rest => (parseStringBody rest).map (fun (s, r) => ('\\' :: s, r))
    | '/' :: rest => (parseStringBody rest).map (fun (s, r) => ('/' :: s, r))
    | 'b' :: rest => (parseStringBody rest).map (fun (s, r) => ('\x08' :: s, r))
    | 'f' :: rest => (parseStringBody rest).map (fun (s, r) => ('\x0c' :: s, r))
    | 'n' :: rest => (parseStringBody rest).map (fun (s, r) => ('\n' :: s, r))
    | 'r' :: rest => (parseStringBody rest).map (fun (s, r) => ('\r' :: s, r))
    | 't' :: rest => (parseStringBody rest).map (fun (s, r) => ('\t' :: s, r))
    | 'u' :: h1 :: h2 :: h3 :: h4 :: rest =>
      match hexVal h1, hexVal h2, hexVal h3, hexVal h4 with
      | some a, some b, some c, some d =>
        (parseStringBody rest).map
          (fun (s, r) => (Char.ofNat (((a * 16 + b) * 16 + c) * 16 + d) :: s, r))
      | _, _, _, _ => none
    | _ => none
  | c :: rest =>
    if c.toNat < 32 then none
    else (parseStringBody rest).map (fun (s, r) => (c :: s, r))

def isDigit (c : Char) : Bool := '0' ≤ c && c ≤ '9'

def digitsToNat (l : List Char) : Nat :=
  l.foldl (fun acc c => acc * 10 + (c.toNat - '0'.toNat)) 0

/-- Parse the integer-part digits of a JSON number: `0`, or a nonzero
digit followed by digits (no leading zeros). -/
def parseIntDigits (l : List Char) : Option (List Char × List Char) :=
  match l with
  | '0' :: rest => some (['0'], rest)
  | c :: rest =>
    if isDigit c then some (c :: rest.takeWhile isDigit, rest.dropWhile isDigit)
    else none
  | [] => none

/-- Parse a JSON number (after an optional leading minus has been noted),
producing its exact rational value. -/
def parseNumberBody (neg : Bool) (l : List Char) : Option (Rat × List Char) :=
  match parseIntDigits l with
  | none => none
  | some (intDigits, rest1) =>
    let (fracDigits, rest2) :=
      match rest1 with
      | '.' :: r =>
        (r.takeWhile isDigit, r.dropWhile isDigit)
      | _ => ([], rest1)
    -- a '.' must be followed by at least one digit
    if (match rest1 with | '.' :: _ => fracDigits.isEmpty | _ => false) then none
    else
      let expPart : Option (Bool × List Char × List Char) :=
        match rest2 with
        | 'e' :: '+' :: r => some (false, r.takeWhile isDigit, r.dropWhile isDigit)
        | 'e' :: '-' :: r => some (true, r.takeWhile isDigit, r.dropWhile isDigit)
        | 'e' :: r => some (false, r.takeWhile isDigit, r.dropWhile isDigit)
        | 'E' :: '+' :: r => some (false, r.takeWhile isDigit, r.dropWhile isDigit)
        | 'E' :: '-' :: r => some (true, r.takeWhile isDigit, r.dropWhile isDigit)
        | 'E' :: r => some (false, r.takeWhile isDigit, r.dropWhile isDigit)
        | _ => none
      match expPart with
      | some (_, expDigits, _) =>
        if expDigits.isEmpty then none
        else
          let mantissa : Rat :=
            (digitsToNat intDigits : Rat) +
              (digitsToNat fracDigits : Rat) / ((10 : Rat) ^ fracDigits.length)
          let expNeg := (match expPart with | some (en, _, _) => en | none => false)
          let e := digitsToNat expDigits
          let scaled : Rat :=
            if expNeg then mantissa / ((10 : Rat) ^ e) else mantissa * ((10 : Rat) ^ e)
          let rest3 := (match expPart with | some (_, _, r) => r | none => rest2)
          some ((if neg then -scaled else scaled), rest3)
      | none =>
        let mantissa : Rat :=
          (digitsToNat intDigits : Rat) +
            (digitsToNat fracDigits : Rat) / ((10 : Rat) ^ fracDigits.length)
        some ((if neg then -mantissa else mantissa), rest2)

mutual

/-- Parse one JSON value from the input (leading whitespace allowed). -/
def parseJsonValue : Nat → List Char → Option (JSValue × List Char)
  | 0, _ => none
  | Nat.succ fuel, input =>
    match skipWs input with
    | [] => none
    | c :: rest =>
      if c = '"' then
        (parseStringBody rest).map (fun (s, r) => (.str (String.mk s), r))
      else if c = '\x7b' then
        parseJsonMembers fuel rest []
      else if c = '[' then
        parseJsonElements fuel rest []
      else if c = 't' then
        if ['r', 'u', 'e'].isPrefixOf rest then some (.bool true, rest.drop 3) else none
      else if c = 'f' then
        if ['a', 'l', 's', 'e'].isPrefixOf rest then some (.bool false, rest.drop 4) else none
      else if c = 'n' then
        if ['u', 'l', 'l'].isPrefixOf rest then some (.null, rest.drop 3) else none
      else if c = '-' then
        (parseNumberBody true rest).map (fun (n, r) => (.num n, r))
      else if isDigit c then
        (parseNumberBody false (c :: rest)).map (fun (n, r) => (.num n, r))
      else none

/-- Parse object members after the opening brace (JS keeps the first
position of a repeated key but its last value, which `setAssoc` mirrors). -/
def parseJsonMembers : Nat → List Char → List (String × JSValue) →
    Option (JSValue × List Char)
  | 0, _, _ => none
  | Nat.succ fuel, input, acc =>
    match skipWs input with
    | [] => none
    | c :: rest =>
      if c = '\x7d' then
        if acc.isEmpty then some (.obj [], rest) else none
      else if c = '"' then
        match parseStringBody rest with
        | none => none
        | some (keyChars, afterKey) =>
          match skipWs afterKey with
          | ':' :: afterColon =>
            match parseJsonValue fuel afterColon with
            | none => none
            | some (v, afterVal) =>
              let acc2 := setAssoc acc (String.mk keyChars) v
              match skipWs afterVal with
              | ',' :: afterComma => parseJsonMembers fuel afterComma acc2
              | '\x7d' :: afterBrace => some (.obj acc2, afterBrace)
              | _ => none
          | _ => none
      else none

/-- Parse array elements after the opening bracket. -/
def parseJsonElements : Nat → List Char → List JSValue →
    Option (JSValue × List Char)
  | 0, _, _ => none
  | Nat.succ fuel, input, acc =>
    match skipWs input with
    | [] => none
    | c :: rest =>
      if c = ']' then
        if acc.isEmpty then some (.arr [], rest) else none
      else
        match parseJsonValue fuel (c :: rest) with
        | none => none
        | some (v, afterVal) =>
          let acc2 := acc ++ [v]
          match skipWs afterVal with
          | ',' :: afterComma => parseJsonElements fuel afterComma acc2
          | ']' :: afterBracket => some (.arr acc2, afterBracket)
          | _ => none

end

/-- Model of `JSON.parse`: `some v` when the whole text is one JSON value
surrounded by optional whitespace, `none` when `JSON.parse` would throw. -/
def jsonParse (s : String) : Option JSValue :=
  match parseJsonValue (2 * s.length + 2) s.data with
  | none => none
  | some (v, rest) => if (skipWs rest).isEmpty then some v else none


/-! ## `src/utils/json-helpers.js` -/

/-- Model of `Array.isArray`. -/
def JSValue.isArr : JSValue → Bool
  | .arr _ => true
  | _ => false

def backtickChar : Char := Char.ofNat 96

def aposChar : Char := Char.ofNat 39

/-- The fence marker three-backtick sequence. -/
def fenceChars : List Char := [backtickChar, backtickChar, backtickChar]

/-- Model of `cleaned.match(/```(?:json)?\s*([\s\S]*?)```/)`: the lazily
captured content of the first fenced block, `none` when the regex does not
match. After the opening fence an optional literal `json` and then the
greedy `\s*` run are skipped; the capture extends to the next fence. -/
def extractFirstFence (s : String) : Option String :=
  match splitAtFirst fenceChars s.data with
  | none => none
  | some (_, afterOpen) =>
    let afterJson :=
      if ['j', 's', 'o', 'n'].isPrefixOf afterOpen then afterOpen.drop 4 else afterOpen
    let body0 := afterJson.dropWhile jsIsWs
    match splitAtFirst fenceChars body0 with
    | none => none
    | some (body, _) => some (String.mk body)

/-- Model of `.replace(/```json\s*/g, '')`: delete every occurrence of the
marker together with the whitespace run that follows it. -/
def stripFenceJson (l : List Char) : List Char :=
  match l with
  | [] => []
  | c :: rest =>
    if (fenceChars ++ ['j', 's', 'o', 'n']).isPrefixOf (c :: rest) then
      stripFenceJson ((rest.drop 6).dropWhile jsIsWs)
    else c :: stripFenceJson rest
termination_by l.length
decreasing_by
  · have h1 : ∀ l : List Char, (l.dropWhile jsIsWs).length ≤ l.length := by
      intro l
      induction l with
      | nil => simp
      | cons c rest ih =>
        by_cases h : jsIsWs c
        · simp only [List.dropWhile, h]
          exact Nat.le_succ_of_le ih
        · simp [List.dropWhile, h]
    have h2 : (rest.drop 6).length ≤ rest.length := by
      simp [List.length_drop]
    have h3 := h1 (rest.drop 6)
    simp only [List.length_cons]
    omega
  · simp

/-- Model of `.replace(/```\s*/g, '')`. -/
def stripFence (l : List Char) : List Char :=
  match l with
  | [] => []
  | c :: rest =>
    if fenceChars.isPrefixOf (c :: rest) then
      stripFence ((rest.drop 2).dropWhile jsIsWs)
    else c :: stripFence rest
termination_by l.length
decreasing_by
  · have h1 : ∀ l : List Char, (l.dropWhile jsIsWs).length ≤ l.length := by
      intro l
      induction l with
      | nil => simp
      | cons c rest ih =>
        by_cases h : jsIsWs c
        · simp only [List.dropWhile, h]
          exact Nat.le_succ_of_le ih
        · simp [List.dropWhile, h]
    have h2 : (rest.drop 2).length ≤ rest.length := by
      simp [List.length_drop]
    have h3 := h1 (rest.drop 2)
    simp only [List.length_cons]
    omega
  · simp

/-- The marker-removal fallback branch of the fence handling. -/
def stripFenceMarkers (s : String) : String :=
  String.mk (stripFence (stripFenceJson s.data))

/-- Model of `cleaned.match(/\x7b[\s\S]*\x7d/)`: the substring from the
first opening brace to the last closing brace, when the latter comes after
the former. -/
def braceSlice (s : String) : Option String :=
  match firstIndexOf '\x7b' s.data, lastIndexOf '\x7d' s.data with
  | some i, some j =>
    if i < j then some (String.mk ((s.data.drop i).take (j - i + 1))) else none
  | _, _ => none

/-- Model of `cleaned.match(/\[[\s\S]*\]/)`. -/
def bracketSlice (s : String) : Option String :=
  match firstIndexOf '[' s.data, lastIndexOf ']' s.data with
  | some i, some j =>
    if i < j then some (String.mk ((s.data.drop i).take (j - i + 1))) else none
  | _, _ => none

/-- Embedding of `extractJsonFromText` (`src/utils/json-helpers.js`): try `JSON.parse` on
the whole text; on failure strip or extract markdown fencing, then parse the
first-brace-to-last-brace (or bracket) slice; `none` models `return null`.
A parse failure inside the recovery branch is caught and yields `null`,
which `Option.bind` mirrors. -/
def extractJsonFromText (text : String) : Option JSValue :=
  if text = "" then none
  else
    match jsonParse text with
    | some v => some v
    | none =>
      let cleaned :=
        if hasSubstr text (String.mk fenceChars) then
          match extractFirstFence text with
          | some cap => if cap ≠ "" then jsTrim cap else stripFenceMarkers text
          | none => stripFenceMarkers text
        else text
      match (jsTrim cleaned).data with
      | '\x7b' :: _ => (braceSlice cleaned).bind jsonParse
      | '[' :: _ => (bracketSlice cleaned).bind jsonParse
      | _ => none

/-- Embedding of `normalizePersonsData` (`src/utils/json-helpers.js`): falsy input gives
an empty array; an array is returned as is; a wrapper object with an array
under `persons`, `people` or `data` (in that order) gives that array; any
other value is wrapped as a one-element array. -/
def normalizePersonsData (data : JSValue) : JSValue :=
  if truthy data = false then .arr []
  else
    match data with
    | .arr xs => .arr xs
    | _ =>
      let p := getField data "persons"
      if truthy p && p.isArr then p
      else
        let q := getField data "people"
        if truthy q && q.isArr then q
        else
          let r := getField data "data"
          if truthy r && r.isArr then r
          else .arr [data]

/-! ## `src/prompts/person-extraction-prompt.js` and prompt construction -/

/-- The text of the `PERSON_EXTRACTION_PROMPT` template literal before its
single `[DOCUMENT_TEXT]` placeholder, byte for byte. -/
def promptHead : String :=
  "\nYou are a specialized assistant for extracting historical biographical information from documents about passengers and crew members who traveled on the City of Adelaide ship.\n\nTASK:\nExtract information about ALL distinct persons mentioned in the document. \n\nOUTPUT FORMAT:\nYou MUST return a JSON object with this structure:\n\x7b\n  \"persons\": [\n    \x7b person1 details \x7d,\n    \x7b person2 details \x7d,\n    ...\n  ]\n\x7d\n\nSCHEMA (for each person):\n\x7b\n  \"first_name\": \"First name of the person (required)\",\n  \"middle_names\": \"Middle name(s) of the person, if any (can be null)\",\n  \"last_name\": \"Last name of the person (required)\",\n  \"gender\": \"Gender (Male, Female, or null if unknown)\",\n  \"birth_date\": \"Date of birth in YYYY-MM-DD format (use approximate date if exact date is unknown, e.g., '1850-01-01' for 'circa 1850')\",\n  \"birth_place\": \"Place of birth\",\n  \"death_date\": \"Date of death in YYYY-MM-DD format\",\n  \"death_place\": \"Location where the person died\",\n  \"age_at_death\": \"Age at death (as a string, e.g., '65 years')\",\n  \"burial_place\": \"Place where the person was buried\"\n\x7d\n\nINSTRUCTIONS:\n1. Your primary task is to identify EVERY distinct person mentioned.\n2. The document often contains information about multiple people - look for family members, spouses, children, and other individuals.\n3. For each person, extract all relevant biographical details that match the schema.\n4. For dates, use YYYY-MM-DD format. If only a year is known, use YYYY-01-01.\n5. For each person, only include fields where information is available.\n6. If a person has no middle names, set middle_names to null.\n7. First name and last name are required for each person.\n8. Even if the document focuses on one main person, include ALL other persons mentioned with biographical details.\n9. Pay special attention to family relationships - each mention of a spouse, child, parent, or sibling should result in an additional person entry.\n10. People are often mentioned in passing - make sure to capture them all.\n\nDOCUMENT:\n"

/-- The text of the template literal after the placeholder, byte for
byte. -/
def promptTail : String :=
  "\n\nOUTPUT:\nReturn your response as a JSON object with a \"persons\" array containing all people identified in the document. Always use this format:\n\x7b\n  \"persons\": [\n    \x7b \"first_name\": \"...\", \"last_name\": \"...\", ... \x7d,\n    \x7b \"first_name\": \"...\", \"last_name\": \"...\", ... \x7d,\n    ...\n  ]\n\x7d\n"

/-- The `PERSON_EXTRACTION_PROMPT` template literal of
`src/prompts/person-extraction-prompt.js`, transcribed byte for byte; it is
written here as its text split at its single `[DOCUMENT_TEXT]` placeholder,
and the concatenation reproduces the literal exactly. -/
def PERSON_EXTRACTION_PROMPT : String :=
  promptHead ++ "[DOCUMENT_TEXT]" ++ promptTail

/-- The `GetSubstitution` rules of `String.prototype.replace` with a string pattern:
in the replacement, `$$` yields `$`, `$&` the matched text, a dollar
followed by a backtick the text before the match, `$` followed by an
apostrophe the text after it; any other character is copied. -/
def expandRepl (matched before after : String) : List Char → List Char
  | [] => []
  | [c] => [c]
  | c :: d :: rest =>
    if c = '$' then
      if d = '$' then '$' :: expandRepl matched before after rest
      else if d = '&' then matched.data ++ expandRepl matched before after rest
      else if d = backtickChar then before.data ++ expandRepl matched before after rest
      else if d = aposChar then after.data ++ expandRepl matched before after rest
      else c :: expandRepl matched before after (d :: rest)
    else c :: expandRepl matched before after (d :: rest)

/-- Model of `s.replace(pattern, repl)` with a plain-string `pattern`: replace the
first occurrence of `pattern`, applying `GetSubstitution` to `repl`. -/
def jsStringReplace (s pattern repl : String) : String :=
  match splitAtFirst pattern.data s.data with
  | none => s
  | some (b, a) =>
    String.mk (b ++ expandRepl pattern (String.mk b) (String.mk a) repl.data ++ a)

/-- The prompt sent to the provider
(`PERSON_EXTRACTION_PROMPT.replace('[DOCUMENT_TEXT]', documentText)`). -/
def buildPrompt (documentText : String) : String :=
  jsStringReplace PERSON_EXTRACTION_PROMPT "[DOCUMENT_TEXT]" documentText



/-! ## Schema validation (`jsonschema` applied to
`src/schemas/person-schema.json`) -/

/-- One field-level error descriptor, with the fields of a `jsonschema`
`ValidationError` the pipeline reads: the instance path, the message, and
the violated argument (for `required`, the missing property name). -/
structure ValidationError where
  property : String
  message : String
  argument : String
deriving DecidableEq

/-- The JSON-Schema primitive types occurring in the two schemas. -/
inductive JSType where
  | string : JSType
  | null : JSType
  | object : JSType
  | array : JSType
deriving DecidableEq

def typeName : JSType → String
  | .string => "string"
  | .null => "null"
  | .object => "object"
  | .array => "array"

/-- The `jsonschema` type test: `object` excludes arrays and `null`. -/
def typeMatches (t : JSType) (v : JSValue) : Bool :=
  match t, v with
  | .string, .str _ => true
  | .null, .null => true
  | .object, .obj _ => true
  | .array, .arr _ => true
  | _, _ => false

def joinComma : List String → String
  | [] => ""
  | [s] => s
  | s :: rest => s ++ "," ++ joinComma rest

/-- The `format: "date"` test of `jsonschema`: `YYYY-MM-DD`. -/
def dateFormatOk (s : String) : Bool :=
  match s.data with
  | [a, b, c, d, '-', e, f, '-', g, h] =>
    isDigit a && isDigit b && isDigit c && isDigit d &&
      isDigit e && isDigit f && isDigit g && isDigit h
  | _ => false

/-- One property entry of `person-schema.json`: name, allowed types,
optional `enum`, and whether `format: "date"` is declared. -/
structure PropEntry where
  name : String
  types : List JSType
  enumVals : Option (List JSValue)
  isDate : Bool

/-- The `properties` of `person-schema.json`, in declaration order. -/
def personProperties : List PropEntry :=
  [ ⟨"first_name", [.string], none, false⟩,
    ⟨"middle_names", [.string, .null], none, false⟩,
    ⟨"last_name", [.string], none, false⟩,
    ⟨"gender", [.string, .null], some [.str "Male", .str "Female", .null], false⟩,
    ⟨"birth_date", [.string, .null], none, true⟩,
    ⟨"birth_place", [.string, .null], none, false⟩,
    ⟨"death_date", [.string, .null], none, true⟩,
    ⟨"death_place", [.string, .null], none, false⟩,
    ⟨"age_at_death", [.string, .null], none, false⟩,
    ⟨"burial_place", [.string, .null], none, false⟩ ]

/-- The `required` list of `person-schema.json`. -/
def personRequired : List String := ["first_name", "last_name"]

/-- Whether a property is present (a field set to `undefined` counts as
missing, as in `jsonschema`). -/
def fieldPresent (fs : List (String × JSValue)) (n : String) : Bool :=
  match lookupAssoc fs n with
  | some .undefined => false
  | some _ => true
  | none => false

/-- The errors one present property value produces against its subschema:
a type error, an enum error, a date-format error (each when violated). -/
def propEntryErrors (fs : List (String × JSValue)) (e : PropEntry) : List ValidationError :=
  match lookupAssoc fs e.name with
  | none => []
  | some .undefined => []
  | some v =>
    (if e.types.any (fun t => typeMatches t v) then []
     else [⟨"instance." ++ e.name,
            "is not of a type(s) " ++ joinComma (e.types.map typeName),
            joinComma (e.types.map typeName)⟩]) ++
    (match e.enumVals with
     | none => []
     | some es =>
       if es.any (fun w => JSValue.beq w v) then []
       else [⟨"instance." ++ e.name, "is not one of enum values", "enum"⟩]) ++
    (if e.isDate then
       match v with
       | .str s =>
         if dateFormatOk s then []
         else [⟨"instance." ++ e.name, "does not conform to the \"date\" format", "date"⟩]
       | _ => []
     else [])

def propErrorsAll (fs : List (String × JSValue)) : List PropEntry → List ValidationError
  | [] => []
  | e :: rest => propEntryErrors fs e ++ propErrorsAll fs rest

def requiredErrors (fs : List (String × JSValue)) : List String → List ValidationError
  | [] => []
  | n :: rest =>
    (if fieldPresent fs n then []
     else [⟨"instance", "requires property \"" ++ n ++ "\"", n⟩]) ++
    requiredErrors fs rest

/-- Embedding of `validator.validate(v, personSchema).errors`: a non-object instance
fails the `type` keyword and is checked no further; an object is checked
property by property and then for the required names. An empty list is
`validationResult.valid`. -/
def validatePerson (v : JSValue) : List ValidationError :=
  match v with
  | .obj fs => propErrorsAll fs personProperties ++ requiredErrors fs personRequired
  | _ => [⟨"instance", "is not of a type(s) object", "object"⟩]

def elemTypeErrors (i : Nat) : List JSValue → List ValidationError
  | [] => []
  | x :: rest =>
    (match x with
     | .obj _ => []
     | _ => [⟨"instance[" ++ toString i ++ "]", "is not of a type(s) object", "object"⟩]) ++
    elemTypeErrors (i + 1) rest

/-- Modelled from the spec: `src/schemas/persons-schema.json` is read by the
orchestrator but is not in the repository snapshot. §6 describes it as "a
derived schema for a homogeneous collection of Person Records" and §4.5 has
the collection check enforce the sequence type and homogeneous record shape,
leaving per-record field checks to the orchestrator's element-by-element
loop. We therefore model `validator.validate(v, personsSchema).errors` as:
the instance must be an array, and every element must be an object. -/
def validatePersonsCollection (v : JSValue) : List ValidationError :=
  match v with
  | .arr xs => elemTypeErrors 0 xs
  | _ => [⟨"instance", "is not of a type(s) array", "array"⟩]

/-! ## Providers (`llm-interface.js`, `mock-llm.js`, `llm-factory.js`,
`llm/index.js`) -/

/-- A thrown JavaScript error, reduced to the `message` the pipeline
reads. -/
structure JSError where
  message : String
deriving DecidableEq

/-- An LLM provider instance: the two capabilities the orchestrator
invokes. `Except` models a rejected promise / thrown error. -/
structure Provider where
  generateJSON : String → JSValue → Except JSError JSValue
  generateResponse : String → JSValue → Except JSError String

/-- JS object spread `\x7b...v\x7d` (a non-object operand contributes no
string-keyed enumerable properties in the cases exercised here). -/
def jsSpreadObj (v : JSValue) : List (String × JSValue) :=
  match v with
  | .obj fs => fs
  | _ => []

/-- Model of `a || b`. -/
def jsOr (a b : JSValue) : JSValue := if truthy a then a else b

/-- Embedding of `LLMInterface.generateJSON`: call `generateResponse` with
`responseFormat: 'json'` merged over the options, then `JSON.parse` the
text; a parse failure is a thrown `SyntaxError` (its exact message is not
inspected anywhere). -/
def defaultGenerateJSON (genResp : String → JSValue → Except JSError String)
    (prompt : String) (options : JSValue) : Except JSError JSValue :=
  match genResp prompt (.obj (setAssoc (jsSpreadObj options) "responseFormat" (.str "json"))) with
  | .error e => .error e
  | .ok r =>
    match jsonParse r with
    | some v => .ok v
    | none => .error ⟨"Unexpected token in JSON"⟩

def apos : String := String.mk [aposChar]

/-- The constructor state of a `MockLLM` instance. -/
structure MockState where
  mockResponses : JSValue
  defaultResponse : JSValue
  recordMode : JSValue
  recordDir : JSValue

def mkMockState (options : JSValue) : MockState :=
  { mockResponses := jsOr (getField options "mockResponses") (.obj []),
    defaultResponse := jsOr (getField options "defaultResponse") .null,
    recordMode := jsOr (getField options "recordMode") (.bool false),
    recordDir := jsOr (getField options "recordDir") .null }

/-- The `JSON.stringify` output of the canned fallback person of
`MockLLM.generateResponse`. -/
def mockFallbackResponse : String :=
  "\x7b\"first_name\":\"John\",\"middle_names\":\"William\",\"last_name\":\"Smith\",\"gender\":\"Male\",\"birth_date\":\"1850-03-15\",\"birth_place\":\"London, England\",\"death_date\":\"1920-11-23\",\"death_place\":\"Adelaide, Australia\",\"age_at_death\":\"70 years\",\"burial_place\":\"Adelaide Cemetery\"\x7d"

/-- Embedding of `MockLLM.generateResponse`: a canned response for the exact prompt, the
record-mode branch, the configured default, or the canned fallback person.
A canned or default value that is not a string would make the caller's
string operations throw in JS; the model surfaces that as an error at the
return site. The record-mode branch performs file writes and calls
`options.realLLM`, which as a data value is not callable, so it throws. -/
def mockGenerateResponse (st : MockState) (prompt : String) (options : JSValue) :
    Except JSError String :=
  let direct := getField st.mockResponses prompt
  if truthy direct then
    match direct with
    | .str s => .ok s
    | _ => .error ⟨"TypeError: mock response is not a string"⟩
  else if truthy st.recordMode && truthy (getField options "realLLM") &&
      truthy st.recordDir then
    .error ⟨"TypeError: options.realLLM.generateResponse is not a function"⟩
  else if truthy st.defaultResponse then
    match st.defaultResponse with
    | .str s => .ok s
    | _ => .error ⟨"TypeError: mock default response is not a string"⟩
  else .ok mockFallbackResponse

/-- The factory function registered for the mock provider
(`options => new MockLLM(options)`); `generateJSON` is inherited from
`LLMInterface`. -/
def mockProvider (options : JSValue) : Provider :=
  let st := mkMockState options
  { generateJSON := defaultGenerateJSON (mockGenerateResponse st),
    generateResponse := mockGenerateResponse st }

/-- The static query results of a provider class
(`checkAPIKey()` and `getProviderName()`). -/
structure CheckResult where
  success : Bool
  message : Option String := none
  error : Option String := none
deriving DecidableEq

structure ProviderClass where
  checkAPIKey : CheckResult
  providerName : String

def mockClass : ProviderClass :=
  ⟨⟨true, some "No API key required for mock LLM provider", none⟩, "Mock"⟩

/-- The mutable state of an `LLMFactory` instance. -/
structure LLMFactoryState where
  providers : List (String × (JSValue → Provider))
  providerClasses : List (String × ProviderClass)
  defaultProvider : Option String

/-- Truthiness of `this.defaultProvider` / a provider-name value. -/
def strOptFalsy : Option String → Bool
  | none => true
  | some s => s = ""

/-- Embedding of `LLMFactory.registerProvider`: idempotent overwrite; the first
registration also sets the default pointer. -/
def LLMFactoryState.registerProvider (f : LLMFactoryState) (name : String)
    (cls : ProviderClass) (factory : JSValue → Provider) : LLMFactoryState :=
  { providers := setAssoc f.providers name factory,
    providerClasses := setAssoc f.providerClasses name cls,
    defaultProvider :=
      if strOptFalsy f.defaultProvider then some name else f.defaultProvider }

/-- Embedding of `LLMFactory.setDefaultProvider`. -/
def LLMFactoryState.setDefaultProvider (f : LLMFactoryState) (name : String) :
    Except JSError LLMFactoryState :=
  match lookupAssoc f.providers name with
  | none => .error ⟨"Provider " ++ apos ++ name ++ apos ++ " is not registered"⟩
  | some _ => .ok { f with defaultProvider := some name }

/-- Embedding of `LLMFactory.create`: resolve the name or the default, throw when none
is available or the name is unregistered, else construct a fresh
instance. -/
def LLMFactoryState.create (f : LLMFactoryState) (name : Option String)
    (options : JSValue) : Except JSError Provider :=
  let providerName := if strOptFalsy name then f.defaultProvider else name
  if strOptFalsy providerName then .error ⟨"No LLM provider is registered"⟩
  else
    let pn := providerName.getD ""
    match lookupAssoc f.providers pn with
    | none => .error ⟨"Provider " ++ apos ++ pn ++ apos ++ " is not registered"⟩
    | some factory => .ok (factory options)

/-- Embedding of `LLMFactory.checkAPIKey`: throws for an unregistered name, else
delegates to the class. -/
def LLMFactoryState.checkAPIKey (f : LLMFactoryState) (name : String) :
    Except JSError CheckResult :=
  match lookupAssoc f.providerClasses name with
  | none => .error ⟨"Provider " ++ apos ++ name ++ apos ++ " is not registered"⟩
  | some cls => .ok cls.checkAPIKey

/-- Embedding of `LLMFactory.getProviderName`: falls back to the registered name itself
for an unregistered provider (it does not throw). -/
def LLMFactoryState.getProviderName (f : LLMFactoryState) (name : String) : String :=
  match lookupAssoc f.providerClasses name with
  | none => name
  | some cls => cls.providerName

/-- The singleton `llmFactory` after module initialization: the
constructor registers the mock provider, and `llm/index.js` immediately
registers it once more (an idempotent overwrite). Live backends are only
added by the optional `registerAllProviders`. -/
def llmFactoryInitial : LLMFactoryState :=
  ((LLMFactoryState.mk [] [] none).registerProvider "mock" mockClass mockProvider).registerProvider
    "mock" mockClass mockProvider

/-! ## The extraction orchestrator
(`extractPersonFromDocument`, `src/utils/person/person-extractor.js`) -/

/-- The options accepted by `extractPersonFromDocument`. -/
structure ExtractOptions where
  llm : Option Provider := none
  provider : Option String := none
  llmOptions : Option JSValue := none

/-- The tagged result object `extractPersonFromDocument` returns; an
`Option` field is a key the corresponding return statement omits. -/
structure ExtractionResult where
  success : Bool
  data : Option (List JSValue) := none
  error : Option String := none
  errors : Option (List ValidationError) := none

def openaiSystemPrompt : String :=
  "You are a specialized assistant for extracting historical biographical information. Return your response as a valid JSON object with a \"persons\" array containing all people."

def genericSystemPrompt : String :=
  "You are a specialized assistant for extracting historical biographical information. Your output should ALWAYS be valid JSON only."

/-- Steps building `llmOptions`: spread of `options.llmOptions`, then the
OpenAI-specific overlay when `options.provider === 'openai'`, else the
generic JSON-only system prompt. -/
def buildLlmOptions (opts : ExtractOptions) : JSValue :=
  let base : JSValue :=
    .obj (jsSpreadObj (match opts.llmOptions with | some v => v | none => .undefined))
  if opts.provider = some "openai" then
    let o1 := setField base "systemPrompt" (.str openaiSystemPrompt)
    let o2 := setField o1 "model" (jsOr (getField o1 "model") (.str "gpt-4-turbo"))
    let o3 := setField o2 "temperature" (.num (2 / 10))
    setField o3 "responseFormat" (.obj [("type", .str "json_object")])
  else
    setField base "systemPrompt" (.str genericSystemPrompt)

/-- Step 2 of the orchestrator: a caller-supplied instance, else creation
by name (when the name is truthy), else the registry default. -/
def resolveLlm (factory : LLMFactoryState) (opts : ExtractOptions) :
    Except JSError Provider :=
  match opts.llm with
  | some l => .ok l
  | none =>
    if strOptFalsy opts.provider then factory.create none (.obj [])
    else factory.create opts.provider (.obj [])

/-- Step 3 with its inner `try/catch`: the structured attempt, then the
free-text fallback run through `extractJsonFromText`; a falsy extraction
result throws the raw-response error with the text truncated to 100
characters. -/
def obtainPersonsData (llm : Provider) (prompt : String) (llmOptions : JSValue) :
    Except JSError JSValue :=
  match llm.generateJSON prompt llmOptions with
  | .ok j => .ok (normalizePersonsData j)
  | .error _ =>
    match llm.generateResponse prompt llmOptions with
    | .error e => .error e
    | .ok textResponse =>
      let extracted := extractJsonFromText textResponse
      if (match extracted with | some v => truthy v | none => false) then
        .ok (normalizePersonsData (extracted.getD .undefined))
      else
        .error ⟨"Could not extract valid JSON from the response. Raw response: " ++
          jsSubstringTo textResponse 100 ++ "..."⟩

/-- The element-by-element loop of step 4: the person-schema errors of the
first invalid element, `none` when every element validates. -/
def validationLoop : List JSValue → Option (List ValidationError)
  | [] => none
  | x :: rest =>
    if validatePerson x = [] then validationLoop rest else some (validatePerson x)

/-- Steps 4-5: collection validation, the per-element loop, and the final
result construction (partial data on failure, the uniform array on
success). -/
def finishValidation (personsData : JSValue) : ExtractionResult :=
  let isArrayResponse := personsData.isArr
  let finalList : List JSValue :=
    match personsData with
    | .arr xs => xs
    | other => [other]
  let validationErrors : Option (List ValidationError) :=
    if isArrayResponse then
      let cr := validatePersonsCollection personsData
      if cr = [] then
        validationLoop finalList
      else some cr
    else
      let r := validatePerson personsData
      if r = [] then none else some r
  match validationErrors with
  | some errs => { success := false, errors := some errs, data := some finalList }
  | none => { success := true, data := some finalList }

/-- The `catch` clause wrapping the whole orchestrator body. -/
def catchClause (e : JSError) : ExtractionResult :=
  { success := false, error := some ("Error extracting persons data: " ++ e.message) }

/-- Embedding of `extractPersonFromDocument(documentText, options)`, with the module
singleton `llmFactory` made an explicit argument. Every failing step is an
`Except.error` that the enclosing `try/catch` turns into a failure
result. -/
def extractPersonFromDocument (factory : LLMFactoryState) (documentText : String)
    (options : ExtractOptions) : ExtractionResult :=
  let prompt := buildPrompt documentText
  match resolveLlm factory options with
  | .error e => catchClause e
  | .ok llm =>
    match obtainPersonsData llm prompt (buildLlmOptions options) with
    | .error e => catchClause e
    | .ok personsData => finishValidation personsData



/-! ## Concrete scenario values used in the theorems -/

/-- Whether `pat` begins at no position strictly inside `b` of the string
`b ++ pat ++ a` (the side condition under which the first occurrence of
`pat` is the explicit one). Written with the recursion in tail position so
that it evaluates iteratively on the long template halves. -/
def noEarlyMatch (pat a : List Char) : List Char → Bool
  | [] => true
  | c :: b => !(pat.isPrefixOf ((c :: b) ++ pat ++ a)) && noEarlyMatch pat a b

/-- The exact free-text reply of the C1 scenario. -/
def xyResponse : String := "\x7b\"first_name\":\"X\",\"last_name\":\"Y\"\x7d"

/-- Witness provider for C1. -/
def c1provider : Provider :=
  { generateJSON := fun _ _ => .error ⟨"structured failure"⟩,
    generateResponse := fun _ _ => .ok xyResponse }

/-- The long unparsable free-text reply of the C3 counterexample (131
characters, past the 100-character cut). -/
def c3RawLong : String :=
  "Sorry, I cannot help with that." ++ String.mk (List.replicate 100 'z')

/-- Counterexample provider for C3. -/
def c3provider : Provider :=
  { generateJSON := fun _ _ => .error ⟨"structured failure"⟩,
    generateResponse := fun _ _ => .ok c3RawLong }

/-- The error string the pipeline actually produces for `c3RawLong`. -/
def c3TruncatedMsg : String :=
  "Error extracting persons data: Could not extract valid JSON from the response. Raw response: Sorry, I cannot help with that." ++
    String.mk (List.replicate 69 'z') ++ "..."

/-- Witness provider for C3 amended, replying with the spec example
sentence. -/
def c3providerShort : Provider :=
  { generateJSON := fun _ _ => .error ⟨"structured failure"⟩,
    generateResponse := fun _ _ => .ok "Sorry, I cannot help with that." }

/-- Counterexample provider for C6: structured output with an empty
`first_name`. -/
def c6provider : Provider :=
  { generateJSON := fun _ _ =>
      .ok (.obj [("first_name", .str ""), ("last_name", .str "Y")]),
    generateResponse := fun _ _ => .ok "unused" }

/-- The record the default mock provider produces, parsed. -/
def johnRecord : JSValue :=
  .obj [("first_name", .str "John"), ("middle_names", .str "William"),
    ("last_name", .str "Smith"), ("gender", .str "Male"),
    ("birth_date", .str "1850-03-15"), ("birth_place", .str "London, England"),
    ("death_date", .str "1920-11-23"), ("death_place", .str "Adelaide, Australia"),
    ("age_at_death", .str "70 years"), ("burial_place", .str "Adelaide Cemetery")]

/-- Counterexample provider for C7: a two-record structured reply whose
second record is missing `last_name`. -/
def c7provider : Provider :=
  { generateJSON := fun _ _ =>
      .ok (.arr [.obj [("first_name", .str "Ann"), ("last_name", .str "Smith")],
        .obj [("first_name", .str "Carl")]]),
    generateResponse := fun _ _ => .ok "unused" }


/-! ## Theorems -/

/-- C4: For every sequence of records R, shape-normalizing R itself,
`\x7bpersons: R\x7d`, `\x7bpeople: R\x7d`, and `\x7bdata: R\x7d` all yield
the same sequence R; normalizing an already-normalized sequence returns it
unchanged, and the wrapper keys are tried in the priority order `persons`,
`people`, `data` (a `persons` array wins over `people` and `data`, and a
`people` array wins over `data`). -/
theorem C4_wrapper_equivalence (R : List JSValue) :
    normalizePersonsData (.arr R) = .arr R ∧
    normalizePersonsData (.obj [("persons", .arr R)]) = .arr R ∧
    normalizePersonsData (.obj [("people", .arr R)]) = .arr R ∧
    normalizePersonsData (.obj [("data", .arr R)]) = .arr R ∧
    (∀ S T : List JSValue,
      normalizePersonsData
        (.obj [("persons", .arr R), ("people", .arr S), ("data", .arr T)]) = .arr R) ∧
    (∀ T : List JSValue,
      normalizePersonsData (.obj [("people", .arr R), ("data", .arr T)]) = .arr R) :=
  ⟨rfl, rfl, rfl, rfl, fun _ _ => rfl, fun _ => rfl⟩

/-- C5: a record missing `last_name` always fails single-record validation
with a field-level error naming `last_name`, and a record carrying only
`first_name` and `last_name` as strings passes with no errors. -/
theorem C5_required_field_enforcement :
    (∀ fs : List (String × JSValue), fieldPresent fs "last_name" = false →
      validatePerson (.obj fs) ≠ [] ∧
        ∃ e ∈ validatePerson (.obj fs), e.argument = "last_name") ∧
    (∀ fn ln : String,
      validatePerson (.obj [("first_name", .str fn), ("last_name", .str ln)]) = []) := by
  constructor
  · intro fs h
    have hmem : (⟨"instance", "requires property \"last_name\"", "last_name"⟩ :
        ValidationError) ∈ validatePerson (.obj fs) := by
      unfold validatePerson
      refine List.mem_append_right _ ?_
      simp only [personRequired, requiredErrors]
      rw [h]
      simp
    refine ⟨?_, ⟨_, hmem, rfl⟩⟩
    intro hnil
    rw [hnil] at hmem
    exact List.not_mem_nil _ hmem
  · intro fn ln
    rfl

/-- Witness for C5 at concrete records: `\x7bfirst_name: "A"\x7d` fails with
an error naming `last_name`, and `\x7bfirst_name: "A", last_name: "B"\x7d`
passes. -/
theorem C5_required_field_enforcement_witness :
    (∃ e ∈ validatePerson (.obj [("first_name", .str "A")]), e.argument = "last_name") ∧
    validatePerson (.obj [("first_name", .str "A"), ("last_name", .str "B")]) = [] :=
  ⟨(C5_required_field_enforcement.1 [("first_name", .str "A")] (by decide)).2,
    C5_required_field_enforcement.2 "A" "B"⟩

/-- C8 counterexample: on the factory as initialized by the module, the
name `nonexistent` is not registered, yet `getProviderName("nonexistent")`
returns `"nonexistent"` itself instead of failing — the display-name query
silently substitutes the unregistered name as a fallback, so the claim that
both queries fail with `UnknownProviderError` is false. -/
theorem C8_counterexample_displayName_fallback :
    lookupAssoc llmFactoryInitial.providerClasses "nonexistent" = none ∧
    llmFactoryInitial.getProviderName "nonexistent" = "nonexistent" :=
  ⟨rfl, rfl⟩

/-- C8 amended: for every name unregistered in a factory,
`checkAPIKey(name)` throws the not-registered error, while
`getProviderName(name)` does not fail: it falls back to returning the
queried name itself. -/
theorem C8_unknown_provider_queries (f : LLMFactoryState) (name : String)
    (h : lookupAssoc f.providerClasses name = none) :
    f.checkAPIKey name =
      .error ⟨"Provider " ++ apos ++ name ++ apos ++ " is not registered"⟩ ∧
    f.getProviderName name = name := by
  unfold LLMFactoryState.checkAPIKey LLMFactoryState.getProviderName
  rw [h]
  exact ⟨rfl, rfl⟩

/-- Witness for C8 amended at the initial factory and the name
`nonexistent`. -/
theorem C8_unknown_provider_queries_witness :
    llmFactoryInitial.checkAPIKey "nonexistent" =
      .error ⟨"Provider " ++ apos ++ "nonexistent" ++ apos ++ " is not registered"⟩ ∧
    llmFactoryInitial.getProviderName "nonexistent" = "nonexistent" :=
  C8_unknown_provider_queries llmFactoryInitial "nonexistent" rfl

/-- C9: `normalizePersonsData` is total and always returns an array (a
sequence), whatever JS value it is given; and on every falsy input —
`null` in particular — it returns the empty array, so a structured output
parsing to `null` contributes zero records rather than one. -/
theorem C9_normalize_total_and_falsy :
    (∀ v : JSValue, ∃ xs : List JSValue, normalizePersonsData v = .arr xs) ∧
    (∀ v : JSValue, truthy v = false → normalizePersonsData v = .arr []) ∧
    normalizePersonsData .null = .arr [] := by
  have total : ∀ v : JSValue, ∃ xs : List JSValue, normalizePersonsData v = .arr xs := by
    intro v
    unfold normalizePersonsData
    by_cases hf : truthy v = false
    · rw [if_pos hf]
      exact ⟨[], rfl⟩
    · rw [if_neg hf]
      cases v with
      | arr xs => exact ⟨xs, rfl⟩
      | obj fs =>
        simp only
        by_cases h1 : (truthy (getField (.obj fs) "persons") &&
            (getField (.obj fs) "persons").isArr) = true
        · rw [if_pos h1]
          rcases hp : getField (.obj fs) "persons" with _ | _ | _ | _ | _ | xs | _ <;>
            rw [hp] at h1 <;> simp [JSValue.isArr] at h1 <;> try exact ⟨xs, rfl⟩
        · rw [if_neg h1]
          by_cases h2 : (truthy (getField (.obj fs) "people") &&
              (getField (.obj fs) "people").isArr) = true
          · rw [if_pos h2]
            rcases hp : getField (.obj fs) "people" with _ | _ | _ | _ | _ | xs | _ <;>
              rw [hp] at h2 <;> simp [JSValue.isArr] at h2 <;> try exact ⟨xs, rfl⟩
          · rw [if_neg h2]
            by_cases h3 : (truthy (getField (.obj fs) "data") &&
                (getField (.obj fs) "data").isArr) = true
            · rw [if_pos h3]
              rcases hp : getField (.obj fs) "data" with _ | _ | _ | _ | _ | xs | _ <;>
                rw [hp] at h3 <;> simp [JSValue.isArr] at h3 <;> try exact ⟨xs, rfl⟩
            · rw [if_neg h3]
              exact ⟨[.obj fs], rfl⟩
      | undefined => exact ⟨[.undefined], by simp [truthy] at hf⟩
      | null => exact ⟨[.null], by simp [truthy] at hf⟩
      | bool b => exact ⟨[.bool b], rfl⟩
      | num n => exact ⟨[.num n], rfl⟩
      | str s => exact ⟨[.str s], rfl⟩
  refine ⟨total, ?_, rfl⟩
  intro v hv
  unfold normalizePersonsData
  rw [if_pos hv]

/-- Witness for C9 at the falsy input `null`. -/
theorem C9_normalize_total_and_falsy_witness :
    truthy .null = false ∧ normalizePersonsData .null = .arr [] :=
  ⟨rfl, C9_normalize_total_and_falsy.2.1 .null rfl⟩


theorem isPrefixOf_append_self : ∀ (l t : List Char), l.isPrefixOf (l ++ t) = true
  | [], _ => by simp [List.isPrefixOf]
  | c :: l, t => by
    simp only [List.cons_append, List.isPrefixOf, beq_self_eq_true, Bool.true_and]
    exact isPrefixOf_append_self l t

theorem drop_length_append : ∀ (l t : List Char), (l ++ t).drop l.length = t
  | [], _ => rfl
  | c :: l, t => by
    simp only [List.cons_append, List.length_cons, List.drop_succ_cons]
    exact drop_length_append l t

theorem string_mk_data : ∀ s : String, String.mk s.data = s
  | ⟨_⟩ => rfl

/-- When `pat` is nonempty and occurs at no earlier position, `splitAtFirst`
finds exactly the explicit occurrence. -/
theorem splitAtFirst_append (pat a : List Char) (hpat : pat ≠ []) :
    ∀ b : List Char, noEarlyMatch pat a b = true →
      splitAtFirst pat (b ++ pat ++ a) = some (b, a)
  | [], _ => by
    cases pat with
    | nil => exact absurd rfl hpat
    | cons p ps =>
      have h1 : (([] : List Char) ++ (p :: ps) ++ a) = p :: (ps ++ a) := by simp
      have h2 : (p :: ps).isPrefixOf (p :: (ps ++ a)) = true := by
        have := isPrefixOf_append_self (p :: ps) a
        simpa using this
      have h3 : (p :: (ps ++ a)).drop (p :: ps).length = a := by
        simpa [List.length_cons, List.drop_succ_cons] using drop_length_append ps a
      rw [h1]
      unfold splitAtFirst
      rw [if_pos h2, h3]
  | c :: b, h => by
    have hh := h
    simp only [noEarlyMatch, Bool.and_eq_true, Bool.not_eq_true'] at hh
    obtain ⟨hnp, hrec⟩ := hh
    have hsh : ((c :: b) ++ pat ++ a) = c :: (b ++ pat ++ a) := by simp
    rw [hsh] at hnp
    show splitAtFirst pat ((c :: b) ++ pat ++ a) = some (c :: b, a)
    rw [hsh]
    unfold splitAtFirst
    rw [if_neg (by rw [hnp]; exact Bool.false_ne_true),
      splitAtFirst_append pat a hpat b hrec]

/-- The concrete split of the template at its single `[DOCUMENT_TEXT]`
placeholder. -/
theorem promptSplit_concrete :
    splitAtFirst "[DOCUMENT_TEXT]".data PERSON_EXTRACTION_PROMPT.data =
      some (promptHead.data, promptTail.data) := by
  have hdata : PERSON_EXTRACTION_PROMPT.data =
      promptHead.data ++ "[DOCUMENT_TEXT]".data ++ promptTail.data := by
    simp only [PERSON_EXTRACTION_PROMPT, String.data_append]
  rw [hdata]
  exact splitAtFirst_append "[DOCUMENT_TEXT]".data promptTail.data (by decide)
    promptHead.data (by decide)

/-- The template is its prefix, the placeholder, and its suffix. -/
theorem prompt_decomposition :
    PERSON_EXTRACTION_PROMPT = promptHead ++ "[DOCUMENT_TEXT]" ++ promptTail := rfl

theorem string_mk_append (p d s : String) :
    String.mk (p.data ++ d.data ++ s.data) = p ++ d ++ s := by
  obtain ⟨pl⟩ := p
  obtain ⟨dl⟩ := d
  obtain ⟨sl⟩ := s
  rfl

/-- A replacement string without a dollar sign is inserted unchanged by
`GetSubstitution`. -/
theorem expandRepl_no_dollar (m b a : String) :
    ∀ l : List Char, (∀ c ∈ l, c ≠ '$') → expandRepl m b a l = l
  | [], _ => rfl
  | [c], h => by
    simp only [expandRepl]
  | c :: d :: rest, h => by
    have hc : c ≠ '$' := h c (by simp)
    have htail : expandRepl m b a (d :: rest) = d :: rest :=
      expandRepl_no_dollar m b a (d :: rest) (fun x hx => h x (List.mem_cons_of_mem _ hx))
    simp only [expandRepl, if_neg hc, htail]

/-- C2 counterexample: the produced prompt is not always the template with
the placeholder replaced by the document text verbatim. `String.replace`
applies the JS `GetSubstitution` rules to the replacement string, so the
document text `$$` is inserted as the single character `$`, not as `$$`. -/
theorem C2_counterexample_dollar_substitution :
    buildPrompt "$$" = promptHead ++ "$" ++ promptTail ∧
    buildPrompt "$$" ≠ promptHead ++ "$$" ++ promptTail := by
  have hfirst : buildPrompt "$$" = promptHead ++ "$" ++ promptTail := by
    unfold buildPrompt jsStringReplace
    rw [promptSplit_concrete]
    have hexp : expandRepl "[DOCUMENT_TEXT]" (String.mk promptHead.data)
        (String.mk promptTail.data) ("$$".data) = "$".data := rfl
    simp only [hexp]
    exact string_mk_append promptHead "$" promptTail
  refine ⟨hfirst, fun heq => ?_⟩
  have h2 : promptHead ++ "$" ++ promptTail = promptHead ++ "$$" ++ promptTail :=
    hfirst.symm.trans heq
  have h3 := congrArg (fun s : String => s.data.length) h2
  simp only [String.data_append, List.length_append, List.length_cons,
    List.length_nil] at h3
  omega

/-- C2 amended: the prompt builder is deterministic (it is a pure
function), and for every document text `d` the produced prompt is the
template prefix, then `d` transformed by the JS `GetSubstitution` rules for
`String.replace` (`$$`, `$&`, dollar-backtick and dollar-apostrophe
sequences are expanded), then the template suffix; whenever `d` contains no
`$` character the insertion is verbatim. -/
theorem C2_prompt_substitution (d : String) :
    buildPrompt d =
      String.mk (promptHead.data ++
        expandRepl "[DOCUMENT_TEXT]" promptHead promptTail d.data ++
        promptTail.data) ∧
    ((∀ c ∈ d.data, c ≠ '$') → buildPrompt d = promptHead ++ d ++ promptTail) := by
  have h1 : buildPrompt d =
      String.mk (promptHead.data ++
        expandRepl "[DOCUMENT_TEXT]" promptHead promptTail d.data ++
        promptTail.data) := by
    unfold buildPrompt jsStringReplace
    rw [promptSplit_concrete]
  refine ⟨h1, fun hd => ?_⟩
  rw [h1, expandRepl_no_dollar _ _ _ d.data hd]
  exact string_mk_append promptHead d promptTail

/-- Witness for C2 amended at the dollar-free document text `HELLO`. -/
theorem C2_prompt_substitution_witness :
    buildPrompt "HELLO" = promptHead ++ "HELLO" ++ promptTail :=
  (C2_prompt_substitution "HELLO").2 (by decide)


theorem obtainPersonsData_fallback_xy (llm : Provider) (prompt : String) (o : JSValue)
    (hjson : ∃ e, llm.generateJSON prompt o = .error e)
    (hresp : llm.generateResponse prompt o = .ok xyResponse) :
    obtainPersonsData llm prompt o =
      .ok (.arr [.obj [("first_name", .str "X"), ("last_name", .str "Y")]]) := by
  obtain ⟨e, he⟩ := hjson
  unfold obtainPersonsData
  rw [he, hresp]
  rfl

/-- C1: for every provider whose structured call always throws and whose
free-text call returns `\x7b"first_name":"X","last_name":"Y"\x7d`, the
orchestrator falls back to the free-text path and returns a success result
whose data is exactly the one-element sequence holding that record. -/
theorem C1_fallback_on_structured_failure (factory : LLMFactoryState) (doc : String)
    (opts : ExtractOptions) (prov : Provider) (hllm : opts.llm = some prov)
    (hjson : ∀ p o, ∃ e, prov.generateJSON p o = .error e)
    (hresp : ∀ p o, prov.generateResponse p o = .ok xyResponse) :
    extractPersonFromDocument factory doc opts =
      { success := true,
        data := some [.obj [("first_name", .str "X"), ("last_name", .str "Y")]] } := by
  simp only [extractPersonFromDocument, resolveLlm, hllm]
  rw [obtainPersonsData_fallback_xy prov _ _ (hjson _ _) (hresp _ _)]
  rfl

/-- Witness for C1 at a concrete provider and document. -/
theorem C1_fallback_on_structured_failure_witness :
    extractPersonFromDocument llmFactoryInitial "doc" { llm := some c1provider } =
      { success := true,
        data := some [.obj [("first_name", .str "X"), ("last_name", .str "Y")]] } :=
  C1_fallback_on_structured_failure llmFactoryInitial "doc" { llm := some c1provider }
    c1provider rfl (fun _ _ => ⟨⟨"structured failure"⟩, rfl⟩) (fun _ _ => rfl)

/-- C3 counterexample: on an unparsable 131-character reply the pipeline
does not carry the original raw text in full — the returned object has no
`rawResponse` key at all (the failure carries only `error`), and the error
message embeds just the first 100 characters of the raw text: the full raw
text occurs nowhere in the result. -/
theorem C3_counterexample_truncated_raw :
    extractPersonFromDocument llmFactoryInitial "document" { llm := some c3provider } =
      { success := false, error := some c3TruncatedMsg } ∧
    hasSubstr c3TruncatedMsg c3RawLong = false := by
  constructor
  · rfl
  · decide

/-- C3 amended: when the structured call throws and every parse strategy
fails on the free-text reply (`extractJsonFromText` returns `null`), the
pipeline returns a failure whose `error` message embeds the raw text
truncated to its first 100 characters followed by `...`; no `rawResponse`
field and no `errors`/`data` fields are returned, and text beyond 100
characters is dropped. -/
theorem C3_unparsable_response (factory : LLMFactoryState) (doc : String)
    (opts : ExtractOptions) (prov : Provider) (raw : String)
    (hllm : opts.llm = some prov)
    (hjson : ∀ p o, ∃ e, prov.generateJSON p o = .error e)
    (hresp : ∀ p o, prov.generateResponse p o = .ok raw)
    (hunp : extractJsonFromText raw = none) :
    extractPersonFromDocument factory doc opts =
      { success := false,
        error := some ("Error extracting persons data: " ++
          ("Could not extract valid JSON from the response. Raw response: " ++
            jsSubstringTo raw 100 ++ "...")) } := by
  obtain ⟨e, he⟩ := hjson (buildPrompt doc) (buildLlmOptions opts)
  have hob : obtainPersonsData prov (buildPrompt doc) (buildLlmOptions opts) =
      .error ⟨"Could not extract valid JSON from the response. Raw response: " ++
        jsSubstringTo raw 100 ++ "..."⟩ := by
    unfold obtainPersonsData
    rw [he, hresp]
    simp only [hunp]
    rfl
  simp only [extractPersonFromDocument, resolveLlm, hllm]
  rw [hob]
  rfl

/-- Witness for C3 amended at the spec example reply. -/
theorem C3_unparsable_response_witness :
    extractPersonFromDocument llmFactoryInitial "w" { llm := some c3providerShort } =
      { success := false,
        error := some ("Error extracting persons data: " ++
          ("Could not extract valid JSON from the response. Raw response: " ++
            jsSubstringTo "Sorry, I cannot help with that." 100 ++ "...")) } :=
  C3_unparsable_response llmFactoryInitial "w" { llm := some c3providerShort }
    c3providerShort "Sorry, I cannot help with that." rfl
    (fun _ _ => ⟨⟨"structured failure"⟩, rfl⟩) (fun _ _ => rfl) (by rfl)

/-- Every run of the orchestrator is either a `catch`-clause failure or the
outcome of the validation stage. -/
theorem extract_shape (factory : LLMFactoryState) (doc : String) (opts : ExtractOptions) :
    (∃ e, extractPersonFromDocument factory doc opts = catchClause e) ∨
    (∃ pd, extractPersonFromDocument factory doc opts = finishValidation pd) := by
  have hbody : extractPersonFromDocument factory doc opts =
      match resolveLlm factory opts with
      | .error e => catchClause e
      | .ok llm =>
        match obtainPersonsData llm (buildPrompt doc) (buildLlmOptions opts) with
        | .error e => catchClause e
        | .ok pd => finishValidation pd := rfl
  rw [hbody]
  cases resolveLlm factory opts with
  | error e => exact Or.inl ⟨e, rfl⟩
  | ok llm =>
    show (∃ e, (match obtainPersonsData llm (buildPrompt doc) (buildLlmOptions opts) with
        | Except.error e => catchClause e
        | Except.ok pd => finishValidation pd) = catchClause e) ∨
      (∃ pd, (match obtainPersonsData llm (buildPrompt doc) (buildLlmOptions opts) with
        | Except.error e => catchClause e
        | Except.ok pd => finishValidation pd) = finishValidation pd)
    cases obtainPersonsData llm (buildPrompt doc) (buildLlmOptions opts) with
    | error e => exact Or.inl ⟨e, rfl⟩
    | ok pd => exact Or.inr ⟨pd, rfl⟩

/-- The validation stage is a case split on an optional error list: its
result is either a success with data or a failure carrying errors and the
partial data. -/
theorem finish_result_shape (pd : JSValue) :
    ∃ (ve : Option (List ValidationError)) (fl : List JSValue),
      finishValidation pd =
        match ve with
        | some errs => { success := false, data := some fl, errors := some errs }
        | none => { success := true, data := some fl } :=
  ⟨(if pd.isArr = true then
      (if validatePersonsCollection pd = [] then
        validationLoop (match pd with | .arr xs => xs | other => [other])
      else some (validatePersonsCollection pd))
    else (if validatePerson pd = [] then none else some (validatePerson pd))),
    (match pd with | .arr xs => xs | other => [other]), rfl⟩

/-- The validation stage always produces a tagged result: success with
data, or failure carrying both the errors and the partial data. -/
theorem finish_cases (pd : JSValue) :
    ((finishValidation pd).success = true ∧ (finishValidation pd).data.isSome = true ∧
      (finishValidation pd).error = none ∧ (finishValidation pd).errors = none) ∨
    ((finishValidation pd).success = false ∧ (finishValidation pd).data.isSome = true ∧
      (finishValidation pd).errors.isSome = true ∧ (finishValidation pd).error = none) := by
  obtain ⟨ve, fl, hv⟩ := finish_result_shape pd
  rw [hv]
  cases ve with
  | some errs => exact Or.inr ⟨rfl, rfl, rfl, rfl⟩
  | none => exact Or.inl ⟨rfl, rfl, rfl, rfl⟩

/-- C10: the orchestrator never throws: whatever the registry contents, the
document text and the options (and so whatever the provider calls do), it
returns a result object with a boolean `success`, carrying data on success
and an error description (`error` or `errors`) on every failure path. -/
theorem C10_orchestrator_never_throws (factory : LLMFactoryState) (doc : String)
    (opts : ExtractOptions) :
    ((extractPersonFromDocument factory doc opts).success = true ∧
      (extractPersonFromDocument factory doc opts).data.isSome = true) ∨
    ((extractPersonFromDocument factory doc opts).success = false ∧
      ((extractPersonFromDocument factory doc opts).error.isSome = true ∨
        (extractPersonFromDocument factory doc opts).errors.isSome = true)) := by
  rcases extract_shape factory doc opts with ⟨e, hr⟩ | ⟨pd, hr⟩
  · rw [hr]
    exact Or.inr ⟨rfl, Or.inl rfl⟩
  · rw [hr]
    rcases finish_cases pd with ⟨h1, h2, _, _⟩ | ⟨h1, _, h3, _⟩
    · exact Or.inl ⟨h1, h2⟩
    · exact Or.inr ⟨h1, Or.inr h3⟩


/-- A `null` loop outcome means every element validated. -/
theorem validationLoop_none : ∀ xs : List JSValue, validationLoop xs = none →
    ∀ x ∈ xs, validatePerson x = []
  | [], _, x, hx => absurd hx (List.not_mem_nil x)
  | y :: ys, h, x, hx => by
    unfold validationLoop at h
    by_cases hv : validatePerson y = []
    · rw [if_pos hv] at h
      rcases List.mem_cons.mp hx with rfl | hx'
      · exact hv
      · exact validationLoop_none ys h x hx'
    · rw [if_neg hv] at h
      exact absurd h (by simp)

theorem requiredErrors_nil (fs : List (String × JSValue)) :
    ∀ l : List String, requiredErrors fs l = [] → ∀ n ∈ l, fieldPresent fs n = true
  | [], _, n, hn => absurd hn (List.not_mem_nil n)
  | m :: rest, h, n, hn => by
    unfold requiredErrors at h
    rcases List.append_eq_nil.mp h with ⟨h1, h2⟩
    rcases List.mem_cons.mp hn with rfl | hn'
    · by_cases hp : fieldPresent fs n = true
      · exact hp
      · rw [if_neg hp] at h1
        exact absurd h1 (by simp)
    · exact requiredErrors_nil fs rest h2 n hn'

theorem propErrorsAll_nil (fs : List (String × JSValue)) :
    ∀ l : List PropEntry, propErrorsAll fs l = [] → ∀ e ∈ l, propEntryErrors fs e = []
  | [], _, e, he => absurd he (List.not_mem_nil e)
  | p :: rest, h, e, he => by
    unfold propErrorsAll at h
    rcases List.append_eq_nil.mp h with ⟨h1, h2⟩
    rcases List.mem_cons.mp he with rfl | he'
    · exact h1
    · exact propErrorsAll_nil fs rest h2 e he'

theorem fieldPresent_lookup (fs : List (String × JSValue)) (n : String)
    (h : fieldPresent fs n = true) :
    ∃ v, lookupAssoc fs n = some v ∧ v ≠ .undefined := by
  unfold fieldPresent at h
  cases hv : lookupAssoc fs n with
  | none => rw [hv] at h; exact absurd h (by simp)
  | some v =>
    rw [hv] at h
    cases v
    case undefined => exact absurd h (by simp)
    all_goals exact ⟨_, rfl, fun hh => JSValue.noConfusion hh⟩

/-- A present property whose subschema allows only strings, with no enum
and no date format, validates to no errors exactly when its value is a
string. -/
theorem propEntry_string (fs : List (String × JSValue)) (nm : String) (v : JSValue)
    (h : propEntryErrors fs ⟨nm, [.string], none, false⟩ = [])
    (hv : lookupAssoc fs nm = some v) (hne : v ≠ .undefined) : ∃ s, v = .str s := by
  unfold propEntryErrors at h
  rw [hv] at h
  cases v
  case undefined => exact absurd rfl hne
  case str s => exact ⟨s, rfl⟩
  all_goals simp [typeMatches] at h

/-- A record with no person-schema errors is an object whose `first_name`
and `last_name` are present strings. -/
theorem validatePerson_nil_names (r : JSValue) (h : validatePerson r = []) :
    ∃ fs, r = .obj fs ∧ (∃ s, lookupAssoc fs "first_name" = some (.str s)) ∧
      (∃ t, lookupAssoc fs "last_name" = some (.str t)) := by
  cases r
  case obj fs =>
    unfold validatePerson at h
    rcases List.append_eq_nil.mp h with ⟨hprop, hreq⟩
    have hfirst := requiredErrors_nil fs personRequired hreq "first_name"
      (by simp [personRequired])
    have hlast := requiredErrors_nil fs personRequired hreq "last_name"
      (by simp [personRequired])
    obtain ⟨v1, hv1, hne1⟩ := fieldPresent_lookup fs "first_name" hfirst
    obtain ⟨v2, hv2, hne2⟩ := fieldPresent_lookup fs "last_name" hlast
    have he1 := propErrorsAll_nil fs personProperties hprop
      ⟨"first_name", [.string], none, false⟩ (by simp [personProperties])
    have he2 := propErrorsAll_nil fs personProperties hprop
      ⟨"last_name", [.string], none, false⟩ (by simp [personProperties])
    obtain ⟨s, rfl⟩ := propEntry_string fs "first_name" v1 he1 hv1 hne1
    obtain ⟨t, rfl⟩ := propEntry_string fs "last_name" v2 he2 hv2 hne2
    exact ⟨fs, rfl, ⟨s, hv1⟩, ⟨t, hv2⟩⟩
  all_goals simp [validatePerson] at h

/-- The validation stage on a non-array value. -/
theorem finish_nonarr (pd : JSValue) (h : pd.isArr = false) :
    finishValidation pd =
      match (if validatePerson pd = [] then none else some (validatePerson pd)) with
      | some errs =>
        { success := false, data := some [pd], error := none, errors := some errs }
      | none => { success := true, data := some [pd], error := none, errors := none } := by
  cases pd <;> first | rfl | simp [JSValue.isArr] at h

/-- A success at the validation stage means every record in its data
validates against the person schema. -/
theorem finish_success (pd : JSValue) (hs : (finishValidation pd).success = true) :
    ∀ r ∈ (finishValidation pd).data.getD [], validatePerson r = [] := by
  by_cases ha : pd.isArr = true
  · obtain ⟨xs, rfl⟩ : ∃ xs, pd = .arr xs := by
      cases pd
      case arr xs => exact ⟨xs, rfl⟩
      all_goals simp [JSValue.isArr] at ha
    have hb : finishValidation (.arr xs) =
        match (if validatePersonsCollection (.arr xs) = [] then validationLoop xs
            else some (validatePersonsCollection (.arr xs))) with
        | some errs =>
          { success := false, data := some xs, error := none, errors := some errs }
        | none => { success := true, data := some xs, error := none, errors := none } := rfl
    rw [hb] at hs ⊢
    by_cases hcoll : validatePersonsCollection (.arr xs) = []
    · rw [if_pos hcoll] at hs ⊢
      cases hl : validationLoop xs with
      | none =>
        intro r hr
        exact validationLoop_none xs hl r (by simpa using hr)
      | some errs =>
        rw [hl] at hs
        exact absurd hs (by simp)
    · rw [if_neg hcoll] at hs
      exact absurd hs (by simp)
  · have ha' : pd.isArr = false := by simpa using ha
    rw [finish_nonarr pd ha'] at hs ⊢
    by_cases hv : validatePerson pd = []
    · rw [if_pos hv] at hs ⊢
      intro r hr
      have : r = pd := by simpa using hr
      rw [this]
      exact hv
    · rw [if_neg hv] at hs
      exact absurd hs (by simp)

/-- C6 counterexample: an extraction call can return `success = true` with
a record whose `first_name` is the empty string — the schema checks only
presence and string type, never non-emptiness. -/
theorem C6_counterexample_empty_first_name :
    extractPersonFromDocument llmFactoryInitial "d" { llm := some c6provider } =
      { success := true,
        data := some [.obj [("first_name", .str ""), ("last_name", .str "Y")]] } := rfl

/-- C6 amended: for every record contained in a success extraction result,
`first_name` and `last_name` are present and of string type (an empty
string is accepted; only absence or a non-string type is rejected). -/
theorem C6_success_name_fields (factory : LLMFactoryState) (doc : String)
    (opts : ExtractOptions)
    (hs : (extractPersonFromDocument factory doc opts).success = true) :
    ∀ r ∈ (extractPersonFromDocument factory doc opts).data.getD [],
      ∃ fs, r = .obj fs ∧ (∃ s, lookupAssoc fs "first_name" = some (.str s)) ∧
        (∃ t, lookupAssoc fs "last_name" = some (.str t)) := by
  rcases extract_shape factory doc opts with ⟨e, hr⟩ | ⟨pd, hr⟩
  · rw [hr] at hs
    exact absurd hs (by simp [catchClause])
  · rw [hr] at hs ⊢
    intro r hrm
    exact validatePerson_nil_names r (finish_success pd hs r hrm)

/-- Witness for C6 amended: the default mock-provider run succeeds, and its
one record has `first_name` and `last_name` as present strings. -/
theorem C6_success_name_fields_witness :
    (extractPersonFromDocument llmFactoryInitial "doc" {}).success = true ∧
    (∃ fs, johnRecord = .obj fs ∧ (∃ s, lookupAssoc fs "first_name" = some (.str s)) ∧
      (∃ t, lookupAssoc fs "last_name" = some (.str t))) :=
  ⟨rfl, C6_success_name_fields llmFactoryInitial "doc" {} rfl johnRecord
    (by exact List.mem_singleton_self johnRecord)⟩

/-- Elements that are all objects produce no collection-shape errors. -/
theorem elemTypeErrors_nil : ∀ (l : List JSValue) (i : Nat),
    (∀ y ∈ l, ∃ gs, y = .obj gs) → elemTypeErrors i l = []
  | [], _, _ => rfl
  | y :: ys, i, h => by
    obtain ⟨gs, rfl⟩ := h y (by simp)
    simp only [elemTypeErrors, List.nil_append]
    exact elemTypeErrors_nil ys (i + 1) (fun z hz => h z (by simp [hz]))

/-- The loop stops at the first invalid element and returns its errors:
later elements do not influence the outcome. -/
theorem validationLoop_first : ∀ (pre : List JSValue) (x : JSValue) (post : List JSValue),
    (∀ y ∈ pre, validatePerson y = []) → validatePerson x ≠ [] →
    validationLoop (pre ++ x :: post) = some (validatePerson x)
  | [], x, post, _, hx => by
    simp only [List.nil_append]
    unfold validationLoop
    rw [if_neg hx]
  | y :: pre, x, post, hpre, hx => by
    have hy : validatePerson y = [] := hpre y (by simp)
    simp only [List.cons_append]
    unfold validationLoop
    rw [if_pos hy]
    exact validationLoop_first pre x post (fun z hz => hpre z (by simp [hz])) hx

/-- C7 counterexample: the failure result reported to the caller does not
include the invalid element's record index. The second record (index 1) is
the invalid one, yet the single reported error descriptor has property path
`instance`, message `requires property "last_name"` and argument
`last_name` — the digit `1` appears in none of its fields (the index is
only written to the console log). -/
theorem C7_counterexample_no_index :
    extractPersonFromDocument llmFactoryInitial "d" { llm := some c7provider } =
      { success := false,
        data := some [.obj [("first_name", .str "Ann"), ("last_name", .str "Smith")],
          .obj [("first_name", .str "Carl")]],
        errors := some [⟨"instance", "requires property \"last_name\"", "last_name"⟩] } ∧
    hasSubstr "instance requires property \"last_name\" last_name" "1" = false := by
  constructor
  · rfl
  · decide

/-- C7 amended: sequence validation runs element by element against the
person schema and short-circuits at the first invalid element — the failure
result carries exactly that element's field-level error descriptors and the
full partial data, independent of any later (even invalid) elements — but
the reported errors do not name the element's record index. -/
theorem C7_sequence_short_circuit (pre post : List JSValue) (x : JSValue)
    (hobjs : ∀ y ∈ pre ++ x :: post, ∃ gs, y = .obj gs)
    (hpre : ∀ y ∈ pre, validatePerson y = [])
    (hx : validatePerson x ≠ []) :
    finishValidation (.arr (pre ++ x :: post)) =
      { success := false, data := some (pre ++ x :: post),
        errors := some (validatePerson x) } := by
  have hcoll : validatePersonsCollection (.arr (pre ++ x :: post)) = [] := by
    unfold validatePersonsCollection
    exact elemTypeErrors_nil (pre ++ x :: post) 0 hobjs
  have hloop := validationLoop_first pre x post hpre hx
  have hb : finishValidation (.arr (pre ++ x :: post)) =
      match (if validatePersonsCollection (.arr (pre ++ x :: post)) = [] then
          validationLoop (pre ++ x :: post)
        else some (validatePersonsCollection (.arr (pre ++ x :: post)))) with
      | some errs =>
        { success := false, data := some (pre ++ x :: post), error := none,
          errors := some errs }
      | none =>
        { success := true, data := some (pre ++ x :: post), error := none,
          errors := none } := rfl
  rw [hb, if_pos hcoll, hloop]

/-- Witness for C7 amended: one valid record, then a record missing
`last_name`, then a further invalid record; the result carries only the
second record's errors. -/
theorem C7_sequence_short_circuit_witness :
    finishValidation (.arr ([.obj [("first_name", .str "A"), ("last_name", .str "B")]] ++
        (.obj [("first_name", .str "C")]) :: [.obj [("last_name", .str "D")]])) =
      { success := false,
        data := some ([.obj [("first_name", .str "A"), ("last_name", .str "B")]] ++
          (.obj [("first_name", .str "C")]) :: [.obj [("last_name", .str "D")]]),
        errors := some (validatePerson (.obj [("first_name", .str "C")])) } :=
  C7_sequence_short_circuit
    [.obj [("first_name", .str "A"), ("last_name", .str "B")]]
    [.obj [("last_name", .str "D")]]
    (.obj [("first_name", .str "C")])
    (by
      intro y hy
      simp only [List.cons_append, List.nil_append, List.mem_cons,
        List.not_mem_nil, or_false] at hy
      rcases hy with rfl | rfl | rfl
      · exact ⟨_, rfl⟩
      · exact ⟨_, rfl⟩
      · exact ⟨_, rfl⟩)
    (by
      intro y hy
      simp only [List.mem_singleton] at hy
      subst hy
      rfl)
    (by decide)

end CityOfAdelaide
